import Mathlib

set_option maxHeartbeats 1000000

/-!
Shallow embedding of `src/script.js`, the client-side behavior layer of a
single-page portfolio: visit counter, clock formatting, contact-form
validation, project gallery filtering and search, the debounce helper and
the persisted contact-message list.  DOM rendering and `console.log` are
side effects on the page only and are not part of the embedded state;
`localStorage` is modelled as explicit optional string-valued (or, for the
JSON-encoded message list, parsed-list-valued) state threaded through the
functions that read and write it.  Machine numbers stay in `Nat`/`Int`;
`Option Int` models a JavaScript number that may be `NaN` (`none`).
-/

/-- Characters matched by the JavaScript regex class `\s` (also the set
`String.prototype.trim` strips): space, tab, LF, VT, FF, CR, NBSP, Ogham
space, the U+2000–U+200A spaces, line/paragraph separator, narrow NBSP,
math space, ideographic space and BOM, given by code point. -/
def isJsWs (c : Char) : Bool :=
  decide (c.toNat = 32 ∨ c.toNat = 9 ∨ c.toNat = 10 ∨ c.toNat = 11 ∨
    c.toNat = 12 ∨ c.toNat = 13 ∨ c.toNat = 160 ∨ c.toNat = 5760 ∨
    (8192 ≤ c.toNat ∧ c.toNat ≤ 8202) ∨ c.toNat = 8232 ∨ c.toNat = 8233 ∨
    c.toNat = 8239 ∨ c.toNat = 8287 ∨ c.toNat = 12288 ∨ c.toNat = 65279)

/-- The decimal digits, regex class `[0-9]` (code points 48–57). -/
def isDigitChar (c : Char) : Bool :=
  decide (48 ≤ c.toNat ∧ c.toNat ≤ 57)

/-- JavaScript `value.trim()` on the character list: strips `\s`-class
characters from both ends. -/
def trimL (l : List Char) : List Char :=
  ((l.dropWhile isJsWs).reverse.dropWhile isJsWs).reverse

/-- Value of a most-significant-first list of decimal digit characters. -/
def digitsVal (ds : List Char) : Nat :=
  ds.foldl (fun a c => 10 * a + (c.toNat - 48)) 0

/-- Hexadecimal digit characters, for `parseInt`'s `0x` handling. -/
def isHexDigitChar (c : Char) : Bool :=
  decide ((48 ≤ c.toNat ∧ c.toNat ≤ 57) ∨ (97 ≤ c.toNat ∧ c.toNat ≤ 102) ∨
    (65 ≤ c.toNat ∧ c.toNat ≤ 70))

/-- Value of one hexadecimal digit character. -/
def hexDigitVal (c : Char) : Nat :=
  if 97 ≤ c.toNat then c.toNat - 87
  else if 65 ≤ c.toNat then c.toNat - 55
  else c.toNat - 48

/-- Value of a most-significant-first list of hexadecimal digit characters. -/
def hexVal (ds : List Char) : Nat :=
  ds.foldl (fun a c => 16 * a + hexDigitVal c) 0

/-- Maximal leading run of decimal digits, as JavaScript's `parseInt`
reads the number body; no digit at all means `NaN` (`none`). -/
def parseDecDigits (cs : List Char) : Option Int :=
  let ds := cs.takeWhile isDigitChar
  if ds.isEmpty then none else some (Int.ofNat (digitsVal ds))

/-- Maximal leading run of hexadecimal digits after a `0x` prefix. -/
def parseHexDigits (cs : List Char) : Option Int :=
  let ds := cs.takeWhile isHexDigitChar
  if ds.isEmpty then none else some (Int.ofNat (hexVal ds))

/-- Number body of `parseInt` with no radix argument: a `0x`/`0X` prefix
switches to base 16, anything else is read as decimal. -/
def parseUnsigned (cs : List Char) : Option Int :=
  match cs with
  | c0 :: c1 :: rest =>
      if c0 == '0' && (c1 == 'x' || c1 == 'X') then parseHexDigits rest
      else parseDecDigits (c0 :: c1 :: rest)
  | _ => parseDecDigits cs

/-- JavaScript `parseInt(s)` after leading-whitespace stripping: one
optional sign, then the number body; `none` models `NaN`. -/
def jsParseIntL (cs : List Char) : Option Int :=
  match cs with
  | [] => none
  | c :: rest =>
      if c == '+' then parseUnsigned rest
      else if c == '-' then (parseUnsigned rest).map Int.neg
      else parseUnsigned (c :: rest)

/-- JavaScript `parseInt(s)` (one-argument form). -/
def jsParseInt (s : String) : Option Int :=
  jsParseIntL (s.data.dropWhile isJsWs)

/-- Decimal digit character of `n < 10`. -/
def digitChar (n : Nat) : Char := Char.ofNat (48 + n)

/-- Decimal digits of `n`, most significant first: what JavaScript
`String(n)` produces for a non-negative integer. -/
def natToDigits (n : Nat) : List Char :=
  if _h : n < 10 then [digitChar n]
  else natToDigits (n / 10) ++ [digitChar (n % 10)]
termination_by n
decreasing_by
  exact Nat.div_lt_self (by omega) (by omega)

/-- Decimal rendering of a natural number. -/
def natRepr (n : Nat) : String := ⟨natToDigits n⟩

/-- JavaScript coercion of a number to a string when a number is stored via
`localStorage.setItem`; `none` (NaN) renders as the string `NaN`. -/
def jsNumToString : Option Int → String
  | none => "NaN"
  | some i => if i < 0 then "-" ++ natRepr i.natAbs else natRepr i.natAbs

/-- Persisted visit-counter state: the string values of the `visitCount`
and `lastVisit` localStorage keys (`none` = key absent). -/
structure VStore where
  visitCount : Option String
  lastVisit : Option String
  deriving DecidableEq

/-- Source `getVisitCount` (script.js:249): `count ? parseInt(count) : 0`.
An absent key (`null`) and the empty string are falsy and give 0; every
other stored string goes through `parseInt`. -/
def getVisitCount (stored : Option String) : Option Int :=
  match stored with
  | none => some 0
  | some s => if s = "" then some 0 else jsParseInt s

/-- Source `incrementVisitCount` (script.js:265): read, add one, store the
new total and the current ISO timestamp, return the new total.  `nowISO`
stands for `new Date().toISOString()`; adding 1 to NaN stays NaN. -/
def incrementVisitCount (nowISO : String) (s : VStore) : Option Int × VStore :=
  let count := (getVisitCount s.visitCount).map (· + 1)
  (count, { visitCount := some (jsNumToString count), lastVisit := some nowISO })

/-- Source `resetVisitCounter` (script.js:344): guarded by
`window.confirm`; declining leaves the store untouched, confirming
removes both keys. -/
def resetVisitCounter (confirmed : Bool) (s : VStore) : VStore :=
  if confirmed then { visitCount := none, lastVisit := none } else s

/-- Operations that touch the visit-counter store: a page load
(`incrementVisitCount` runs once per load) or a reset attempt together
with the user's answer to the confirmation prompt. -/
inductive VisitOp where
  | inc (nowISO : String)
  | reset (confirmed : Bool)
  deriving DecidableEq

/-- Effect of one operation on the visit store. -/
def visitStep : VisitOp → VStore → VStore
  | VisitOp.inc iso, s => (incrementVisitCount iso s).2
  | VisitOp.reset c, s => resetVisitCounter c s

/-- State of the visit store after a sequence of operations starting from
a fresh (empty) browser profile. -/
def visitRun (ops : List VisitOp) : VStore :=
  ops.foldl (fun s op => visitStep op s) ⟨none, none⟩

/-- The persisted visit count as the page reads it back, with NaN read as
0 for comparison only (NaN never arises from `visitRun`). -/
def countVal (s : VStore) : Int := (getVisitCount s.visitCount).getD 0

/-- States whose `visitCount` key is absent or holds the decimal
rendering of a natural number — the invariant `visitRun` maintains. -/
def goodStore (s : VStore) : Prop :=
  s.visitCount = none ∨ ∃ n : Nat, s.visitCount = some (natRepr n)

/-- Source `updateClock` 12-hour conversion: `hours % 12 || 12`, the
`|| 12` replacing the falsy 0 that both midnight and noon produce. -/
def hour12 (h : Nat) : Nat :=
  if h % 12 = 0 then 12 else h % 12

/-- Source `String(n).padStart(2, '0')`: left-pad the decimal rendering
to two characters (the rendering of a natural number is never empty, so
one conditional zero suffices). -/
def pad2 (n : Nat) : String :=
  if (natRepr n).length < 2 then "0" ++ natRepr n else natRepr n

/-- Displayed hours/minutes/seconds strings of `updateClock`
(script.js:140) for the current format; the DOM writes, the timer and
the localized date line are outside the embedded state. -/
def updateClockDisplay (is24Hour : Bool) (h m s : Nat) : String × String × String :=
  (pad2 (if is24Hour then h else hour12 h), pad2 m, pad2 s)

/-- Return value of `validateField`: a validity flag and a human-readable
message (empty when valid). -/
structure FieldResult where
  valid : Bool
  message : String
  deriving DecidableEq

/-- One field's entry of the source's `validationRules` table
(script.js:1032).  The numeric rules are optional; the table's present
values (3, 10, 500) are nonzero, so JavaScript truthiness of the rule
coincides with presence.  `patternTest` is the regex's anchored match
test, applied to the raw (untrimmed) field value; messages of absent
rules are never read and carried as the empty string. -/
structure FieldRules where
  required : Bool
  minLength : Option Nat
  maxLength : Option Nat
  patternTest : Option (List Char → Bool)
  msgRequired : String
  msgMinLength : String
  msgMaxLength : String
  msgPattern : String

/-- Check 2 of `validateField`:
`rules.minLength && value.trim().length < rules.minLength`. -/
def minFails (r : FieldRules) (value : String) : Bool :=
  match r.minLength with
  | some m => decide ((trimL value.data).length < m)
  | none => false

/-- Check 3 of `validateField`:
`rules.maxLength && value.trim().length > rules.maxLength`. -/
def maxFails (r : FieldRules) (value : String) : Bool :=
  match r.maxLength with
  | some m => decide (m < (trimL value.data).length)
  | none => false

/-- Check 4 of `validateField`:
`rules.pattern && value.trim() && !rules.pattern.test(value)` — it runs
only when a pattern exists and the trimmed value is non-empty, and it
tests the untrimmed value. -/
def patFails (r : FieldRules) (value : String) : Bool :=
  match r.patternTest with
  | some t => !(trimL value.data).isEmpty && !t value.data
  | none => false

/-- Source `validateField` body (script.js:1108): the four checks in
their fixed order, returning at the first failure. -/
def validateFieldR (r : FieldRules) (value : String) : FieldResult :=
  if r.required && (trimL value.data).isEmpty then ⟨false, r.msgRequired⟩
  else if minFails r value then ⟨false, r.msgMinLength⟩
  else if maxFails r value then ⟨false, r.msgMaxLength⟩
  else if patFails r value then ⟨false, r.msgPattern⟩
  else ⟨true, ""⟩

/-- Messages of the checks that fail on `value`, in the fixed order
required/empty, minLength, maxLength, pattern; a check contributes only
when its rule is present (`minFails`/`maxFails`/`patFails` are `false`
for absent rules), and the pattern check contributes only for a
non-empty trimmed value. -/
def failedChecks (r : FieldRules) (value : String) : List String :=
  (if r.required && (trimL value.data).isEmpty then [r.msgRequired] else []) ++
  (if minFails r value then [r.msgMinLength] else []) ++
  (if maxFails r value then [r.msgMaxLength] else []) ++
  (if patFails r value then [r.msgPattern] else [])

/-- Character class of the `name` pattern `/^[a-zA-ZÀ-ÿ\s]+$/`: ASCII
letters (97–122, 65–90), the Latin-1 block À–ÿ (192–255, the source's
accented-letter range), or `\s` whitespace. -/
def isNameChar (c : Char) : Bool :=
  decide ((97 ≤ c.toNat ∧ c.toNat ≤ 122) ∨ (65 ≤ c.toNat ∧ c.toNat ≤ 90) ∨
    (192 ≤ c.toNat ∧ c.toNat ≤ 255)) || isJsWs c

/-- Anchored match of `/^[a-zA-ZÀ-ÿ\s]+$/`: one or more `isNameChar`
characters and nothing else. -/
def namePatternTest (cs : List Char) : Bool :=
  !cs.isEmpty && cs.all isNameChar

/-- Domain test of the email pattern: some `.` occurs after the first
character of the list and strictly before its last character. -/
def dotInside : List Char → Bool
  | [] => false
  | [_] => false
  | _ :: c :: rest => (c == '.' && !rest.isEmpty) || dotInside (c :: rest)

/-- Anchored match of `/^[^\s@]+@[^\s@]+\.[^\s@]+$/`: exactly one `@`
splitting two non-empty parts free of whitespace and `@`, where the
domain part decomposes as `X.Y` with `X`, `Y` non-empty — equivalently,
the domain has a `.` that is neither its first nor its last character. -/
def emailTest (cs : List Char) : Bool :=
  let localPart := cs.takeWhile (fun c => c != '@')
  match cs.dropWhile (fun c => c != '@') with
  | [] => false
  | _ :: domain =>
      !localPart.isEmpty && !domain.isEmpty &&
      localPart.all (fun c => !isJsWs c) &&
      domain.all (fun c => !isJsWs c && c != '@') &&
      dotInside domain

/-- Consume at most one `\s` character: the regex's `\s?`.  Taking the
whitespace when present loses nothing here, because in the phone pattern
what follows `\s?` must be a digit or the end of the string. -/
def eatWs : List Char → List Char
  | [] => []
  | c :: rest => if isJsWs c then rest else c :: rest

/-- The group part `([0-9]{3}\s?){n}$` of the phone pattern: `n` groups
of three digits, each optionally followed by one whitespace character,
then the end of the string. -/
def matchGroups : Nat → List Char → Bool
  | 0, cs => cs.isEmpty
  | n + 1, a :: b :: c :: rest =>
      isDigitChar a && isDigitChar b && isDigitChar c &&
      matchGroups n (eatWs rest)
  | _ + 1, _ => false

/-- The phone pattern with the optional group `(\+351\s?)?` taken: the
literal `+351`, at most one whitespace character, then the groups. -/
def matchCC (cs : List Char) : Bool :=
  match cs with
  | c1 :: c2 :: c3 :: c4 :: rest =>
      (c1 == '+' && c2 == '3' && c3 == '5' && c4 == '1') &&
      matchGroups 3 (eatWs rest)
  | _ => false

/-- Anchored match of the source phone pattern
`/^(\+351\s?)?([0-9]{3}\s?){3}$/` (script.js:1070): the optional
country-code group either participates or not. -/
def phonePatternTest (cs : List Char) : Bool :=
  matchCC cs || matchGroups 3 cs

/-- Segment that is empty or one whitespace character (`\s?`). -/
def WsOpt (s : List Char) : Prop :=
  s = [] ∨ ∃ w, isJsWs w = true ∧ s = [w]

/-- Shape of `([0-9]{3}\s?){n}` at the end of the string: `n` groups of
three digits, each optionally followed by one whitespace character. -/
def GroupsShape : Nat → List Char → Prop
  | 0, cs => cs = []
  | n + 1, cs =>
      ∃ a b c s rest, isDigitChar a = true ∧ isDigitChar b = true ∧
        isDigitChar c = true ∧ WsOpt s ∧ GroupsShape n rest ∧
        cs = a :: b :: c :: (s ++ rest)

/-- Shape of the strings the phone pattern accepts: an optional literal
`+351` optionally followed by one whitespace character, then three
groups of three digits, each group optionally followed by one whitespace
character — in particular a single trailing whitespace is accepted. -/
def phoneShaped (cs : List Char) : Prop :=
  (∃ s rest, WsOpt s ∧ GroupsShape 3 rest ∧
      cs = '+' :: '3' :: '5' :: '1' :: (s ++ rest)) ∨
  GroupsShape 3 cs

/-- Modelled from the spec claim's wording (`+CCC NNN NNN NNN`-shaped,
country code optional, digits grouped in threes, spaces between groups
optional), written from that sentence and not from the code: three
digits after each segment, literal single spaces, no trailing space. -/
def specTriple (cs : List Char) : Option (List Char) :=
  match cs with
  | a :: b :: c :: rest =>
      if isDigitChar a && isDigitChar b && isDigitChar c then some rest else none
  | _ => none

/-- Consume at most one literal space character. -/
def optSpace : List Char → List Char
  | ' ' :: rest => rest
  | cs => cs

/-- Spec-words shape of the nine digits: three groups of three digits
with the spaces between groups optional, nothing after. -/
def specNine (cs : List Char) : Bool :=
  match specTriple cs with
  | none => false
  | some r1 =>
      match specTriple (optSpace r1) with
      | none => false
      | some r2 =>
          match specTriple (optSpace r2) with
          | none => false
          | some r3 => r3.isEmpty

/-- Spec-words shape of the whole phone value: optional `+` and a
three-digit country code, an optional space, then the nine digits. -/
def specPhoneShaped (cs : List Char) : Bool :=
  (match cs with
   | '+' :: a :: b :: c :: rest =>
       isDigitChar a && isDigitChar b && isDigitChar c && specNine (optSpace rest)
   | _ => false)
  || specNine cs

/-- Entry `validationRules.name` (script.js:1033). -/
def nameRules : FieldRules where
  required := true
  minLength := some 3
  maxLength := none
  patternTest := some namePatternTest
  msgRequired := "Por favor, introduz o teu nome"
  msgMinLength := "O nome deve ter pelo menos 3 caracteres"
  msgMaxLength := ""
  msgPattern := "O nome só pode conter letras"

/-- Entry `validationRules.email` (script.js:1043). -/
def emailRules : FieldRules where
  required := true
  minLength := none
  maxLength := none
  patternTest := some emailTest
  msgRequired := "Por favor, introduz o teu email"
  msgMinLength := ""
  msgMaxLength := ""
  msgPattern := "Por favor, introduz um email válido"

/-- Entry `validationRules.subject` (script.js:1051). -/
def subjectRules : FieldRules where
  required := true
  minLength := none
  maxLength := none
  patternTest := none
  msgRequired := "Por favor, seleciona um assunto"
  msgMinLength := ""
  msgMaxLength := ""
  msgPattern := ""

/-- Entry `validationRules.message` (script.js:1057). -/
def messageRules : FieldRules where
  required := true
  minLength := some 10
  maxLength := some 500
  patternTest := none
  msgRequired := "Por favor, escreve uma mensagem"
  msgMinLength := "A mensagem deve ter pelo menos 10 caracteres"
  msgMaxLength := "A mensagem não pode ter mais de 500 caracteres"
  msgPattern := ""

/-- Entry `validationRules.phone` (script.js:1067). -/
def phoneRules : FieldRules where
  required := false
  minLength := none
  maxLength := none
  patternTest := some phonePatternTest
  msgRequired := ""
  msgMinLength := ""
  msgMaxLength := ""
  msgPattern := "Formato inválido. Ex: 912345678 ou +351 912 345 678"

/-- The source's `validationRules` lookup by field name. -/
def validationRules (field : String) : Option FieldRules :=
  if field = "name" then some nameRules
  else if field = "email" then some emailRules
  else if field = "subject" then some subjectRules
  else if field = "message" then some messageRules
  else if field = "phone" then some phoneRules
  else none

/-- Source `validateField(fieldName, value)`: a field without rules is
valid with the empty message. -/
def validateField (fieldName value : String) : FieldResult :=
  match validationRules fieldName with
  | none => ⟨true, ""⟩
  | some r => validateFieldR r value

/-- One record of the source's static `projects` array (script.js:428). -/
structure Project where
  id : Nat
  title : String
  category : String
  description : String
  image : String
  tags : List String
  link : String
  longDescription : String
  features : List String
  technologies : List String
  date : String
  deriving DecidableEq

/-- The six project records, copied field for field from the source. -/
def projects : List Project := [
  { id := 1,
    title := "E-commerce Website",
    category := "web",
    description := "Loja online completa com carrinho de compras",
    image := "https://via.placeholder.com/400x300/6366f1/ffffff?text=E-commerce",
    tags := ["HTML", "CSS", "JavaScript", "API"],
    link := "#",
    longDescription := "Website de e-commerce completo com sistema de carrinho, checkout e integração com API de pagamentos. Interface moderna e responsiva.",
    features := ["Carrinho de compras", "Sistema de pagamento", "Área de utilizador", "Gestão de produtos"],
    technologies := ["HTML5", "CSS3", "JavaScript ES6+", "LocalStorage", "Fetch API"],
    date := "2025-01" },
  { id := 2,
    title := "App de Tarefas",
    category := "web",
    description := "Gestor de tarefas com filtros e categorias",
    image := "https://via.placeholder.com/400x300/8b5cf6/ffffff?text=Todo+App",
    tags := ["JavaScript", "CSS", "LocalStorage"],
    link := "#",
    longDescription := "Aplicação de gestão de tarefas com sistema de prioridades, categorias e persistência local.",
    features := ["Adicionar/editar/remover tarefas", "Filtros por estado", "Categorias", "Persistência de dados"],
    technologies := ["HTML5", "CSS3", "JavaScript", "LocalStorage"],
    date := "2024-12" },
  { id := 3,
    title := "Portfolio Designer",
    category := "design",
    description := "Portfolio criativo para designer gráfico",
    image := "https://via.placeholder.com/400x300/10b981/ffffff?text=Portfolio",
    tags := ["Figma", "UI/UX", "Protótipo"],
    link := "#",
    longDescription := "Design de portfolio minimalista e elegante para apresentar trabalhos criativos.",
    features := ["Design responsivo", "Animações suaves", "Galeria de trabalhos", "Formulário de contacto"],
    technologies := ["Figma", "Design System", "Prototyping"],
    date := "2024-11" },
  { id := 4,
    title := "App Meteorologia",
    category := "mobile",
    description := "App mobile para consultar previsão do tempo",
    image := "https://via.placeholder.com/400x300/f59e0b/ffffff?text=Weather+App",
    tags := ["React Native", "API", "Mobile"],
    link := "#",
    longDescription := "Aplicação mobile para consultar previsão meteorológica com dados em tempo real.",
    features := ["Previsão 7 dias", "Localização automática", "Alertas meteorológicos", "Favoritos"],
    technologies := ["React Native", "Weather API", "Geolocation"],
    date := "2025-01" },
  { id := 5,
    title := "Dashboard Analytics",
    category := "web",
    description := "Dashboard com gráficos e estatísticas",
    image := "https://via.placeholder.com/400x300/ef4444/ffffff?text=Dashboard",
    tags := ["JavaScript", "Chart.js", "API"],
    link := "#",
    longDescription := "Dashboard interativo para visualização de dados e analytics com gráficos dinâmicos.",
    features := ["Gráficos interativos", "Filtros de data", "Exportar relatórios", "Dados em tempo real"],
    technologies := ["HTML5", "CSS3", "JavaScript", "Chart.js", "Fetch API"],
    date := "2024-10" },
  { id := 6,
    title := "Redesign Logo Empresa",
    category := "design",
    description := "Redesign de identidade visual corporativa",
    image := "https://via.placeholder.com/400x300/ec4899/ffffff?text=Logo+Design",
    tags := ["Illustrator", "Branding", "Logo"],
    link := "#",
    longDescription := "Projeto de redesign completo de identidade visual incluindo logo, cores e tipografia.",
    features := ["Logo principal", "Variações", "Manual de marca", "Mockups"],
    technologies := ["Adobe Illustrator", "Photoshop", "InDesign"],
    date := "2024-09" }]

/-- JavaScript `toLowerCase` on the Latin-1 range the data uses: ASCII
A–Z and À–Þ (except ×, the non-letter at 215) map 32 code points up. -/
def jsToLowerChar (c : Char) : Char :=
  if 65 ≤ c.toNat ∧ c.toNat ≤ 90 then Char.ofNat (c.toNat + 32)
  else if 192 ≤ c.toNat ∧ c.toNat ≤ 222 ∧ c.toNat ≠ 215 then Char.ofNat (c.toNat + 32)
  else c

/-- Lowercasing lifted to strings. -/
def jsToLowerS (s : String) : String := ⟨s.data.map jsToLowerChar⟩

/-- JavaScript `s.trim()` on strings. -/
def jsTrimS (s : String) : String := ⟨trimL s.data⟩

/-- JavaScript `hay.includes(needle)` on character lists. -/
def containsSub (hay needle : List Char) : Bool :=
  match hay with
  | [] => needle.isEmpty
  | c :: t => if needle.isPrefixOf (c :: t) then true else containsSub t needle

/-- Source `filterProjects` subset (script.js:672): every project for
`all`, otherwise the exact category matches, in original order. -/
def categorySubset (category : String) : List Project :=
  if category = "all" then projects
  else projects.filter (fun p => p.category == category)

/-- Match test of `searchProjects`: the term occurs in the lowercased
title, the lowercased description, or some lowercased tag. -/
def projectMatches (term : List Char) (p : Project) : Bool :=
  containsSub (jsToLowerS p.title).data term ||
  containsSub (jsToLowerS p.description).data term ||
  p.tags.any (fun tag => containsSub (jsToLowerS tag).data term)

/-- Source `searchProjects(query)` (script.js:922) as the list it
renders: the term is the lowercased, trimmed query; the empty term falls
back to `filterProjects(currentCategory)`, anything else filters the
active category's subset. -/
def searchResults (currentCategory : String) (query : String) : List Project :=
  let term := jsTrimS (jsToLowerS query)
  if term = "" then categorySubset currentCategory
  else (categorySubset currentCategory).filter (projectMatches term.data)

/-- Executions produced by the source `debounce(func, delay)` wrapper
(script.js:885) on a time-ordered list of calls `(time, argument)`:
each call clears the pending timer and schedules `func` with its own
argument at `time + delay`; the timer fires only if no further call
comes strictly before its fire time.  The result lists the executions
as `(fire time, argument)`. -/
def debounceRun (delay : Nat) : List (Nat × String) → List (Nat × String)
  | [] => []
  | [(t, a)] => [(t + delay, a)]
  | (t, a) :: (t2, a2) :: rest =>
      if t2 < t + delay then debounceRun delay ((t2, a2) :: rest)
      else (t + delay, a) :: debounceRun delay ((t2, a2) :: rest)

/-- A stored contact message, the object `saveMessage` builds
(script.js:1417); `phone = none` is the explicit null marker. -/
structure ContactMsg where
  id : Nat
  name : String
  email : String
  phone : Option String
  subject : String
  message : String
  date : String
  read : Bool
  deriving DecidableEq

/-- The five form fields as `FormData.get` yields them: raw strings, an
empty optional phone being the empty string. -/
structure ContactFormData where
  name : String
  email : String
  phone : String
  subject : String
  message : String
  deriving DecidableEq

/-- Source `saveMessage(formData)` (script.js:1413): read the stored
list (`JSON.parse(localStorage.getItem(...)) || []` reads an absent key
as the empty list), build the message with `Date.now()` as id,
`phone || null` (the empty string is falsy), `read: false`, prepend it
with `unshift`, store the whole list and return the message.  The JSON
round trip through localStorage is modelled as the identity on the
parsed list; `now` and `nowISO` stand for `Date.now()` and
`new Date().toISOString()`. -/
def saveMessage (now : Nat) (nowISO : String) (fd : ContactFormData)
    (stored : Option (List ContactMsg)) : ContactMsg × List ContactMsg :=
  let messages := stored.getD []
  let msg : ContactMsg :=
    { id := now, name := fd.name, email := fd.email,
      phone := if fd.phone = "" then none else some fd.phone,
      subject := fd.subject, message := fd.message,
      date := nowISO, read := false }
  (msg, msg :: messages)

/-- Source `deleteMessage(id)` (script.js:1630): guarded by `confirm`;
confirming keeps every stored message whose id differs
(`messages.filter(m => m.id !== id)`) and stores the result. -/
def deleteMessage (confirmed : Bool) (id : Nat)
    (stored : Option (List ContactMsg)) : Option (List ContactMsg) :=
  if confirmed then some ((stored.getD []).filter (fun m => m.id != id))
  else stored

/-- Source `clearAllMessages` (script.js:1643): guarded by `confirm`;
confirming removes the whole key. -/
def clearAllMessages (confirmed : Bool)
    (stored : Option (List ContactMsg)) : Option (List ContactMsg) :=
  if confirmed then none else stored

/-- Sample messages with distinct ids, used by concrete instantiations. -/
def msgA : ContactMsg :=
  { id := 1, name := "Ana", email := "ana@mail.pt", phone := none,
    subject := "geral", message := "primeira mensagem", date := "d1", read := false }

/-- Second sample message. -/
def msgB : ContactMsg :=
  { id := 2, name := "Rui", email := "rui@mail.pt", phone := some "912345678",
    subject := "geral", message := "segunda mensagem", date := "d2", read := true }

/-- A digit character is not `\s` whitespace. -/
theorem not_ws_of_digit {c : Char} (h : isDigitChar c = true) : isJsWs c = false := by
  simp only [isDigitChar, decide_eq_true_eq] at h
  simp only [isJsWs, decide_eq_false_iff_not]
  omega

/-- Two characters with digit status differing are different. -/
theorem beq_false_of_digit_nondigit {c d : Char} (hc : isDigitChar c = true)
    (hd : isDigitChar d = false) : (c == d) = false := by
  simp only [beq_eq_false_iff_ne, ne_eq]
  rintro rfl
  rw [hc] at hd
  exact Bool.noConfusion hd

theorem digitChar_toNat {n : Nat} (h : n < 10) : (digitChar n).toNat = 48 + n := by
  interval_cases n <;> decide

theorem isDigitChar_digitChar {n : Nat} (h : n < 10) : isDigitChar (digitChar n) = true := by
  interval_cases n <;> decide

theorem natToDigits_ne_nil (n : Nat) : natToDigits n ≠ [] := by
  rw [natToDigits.eq_def]
  split <;> simp

theorem natToDigits_all (n : Nat) : (natToDigits n).all isDigitChar = true := by
  induction n using Nat.strong_induction_on with
  | _ n ih =>
    rw [natToDigits.eq_def]
    split
    next h => simp [isDigitChar_digitChar h]
    next h =>
      rw [List.all_append]
      have h1 := ih (n / 10) (Nat.div_lt_self (by omega) (by omega))
      have h2 := isDigitChar_digitChar (Nat.mod_lt n (by omega))
      simp [h1, h2]

theorem digitsVal_append (l : List Char) (c : Char) :
    digitsVal (l ++ [c]) = 10 * digitsVal l + (c.toNat - 48) := by
  simp [digitsVal, List.foldl_append]

theorem digitsVal_natToDigits (n : Nat) : digitsVal (natToDigits n) = n := by
  induction n using Nat.strong_induction_on with
  | _ n ih =>
    rw [natToDigits.eq_def]
    split
    next h =>
      have := digitChar_toNat h
      simp [digitsVal, this]
    next h =>
      rw [digitsVal_append, ih (n / 10) (Nat.div_lt_self (by omega) (by omega)),
        digitChar_toNat (Nat.mod_lt n (by omega))]
      omega

theorem takeWhile_all_eq {p : Char → Bool} {l : List Char} (h : l.all p = true) :
    l.takeWhile p = l := by
  induction l with
  | nil => rfl
  | cons c t ih =>
    simp only [List.all_cons, Bool.and_eq_true] at h
    simp [List.takeWhile_cons, h.1, ih h.2]

theorem parseUnsigned_digits {cs : List Char} (hne : cs ≠ [])
    (hall : cs.all isDigitChar = true) :
    parseUnsigned cs = some (Int.ofNat (digitsVal cs)) := by
  have hdec : parseDecDigits cs = some (Int.ofNat (digitsVal cs)) := by
    unfold parseDecDigits
    rw [takeWhile_all_eq hall]
    simp [List.isEmpty_iff, hne]
  cases cs with
  | nil => exact absurd rfl hne
  | cons c0 t =>
    cases t with
    | nil => simpa [parseUnsigned] using hdec
    | cons c1 t2 =>
      have h1 : isDigitChar c1 = true := by
        simp only [List.all_cons, Bool.and_eq_true] at hall
        exact hall.2.1
      have hx := beq_false_of_digit_nondigit h1 (show isDigitChar 'x' = false by decide)
      have hX := beq_false_of_digit_nondigit h1 (show isDigitChar 'X' = false by decide)
      simpa [parseUnsigned, hx, hX] using hdec

/-- Round trip: `parseInt` reads back the decimal rendering of a natural
number. -/
theorem jsParseInt_natRepr (n : Nat) : jsParseInt (natRepr n) = some (Int.ofNat n) := by
  have hall := natToDigits_all n
  have hne := natToDigits_ne_nil n
  obtain ⟨c, t, hct⟩ : ∃ c t, natToDigits n = c :: t := by
    cases hcase : natToDigits n with
    | nil => exact absurd hcase hne
    | cons c t => exact ⟨c, t, rfl⟩
  have hcd : isDigitChar c = true := by
    rw [hct] at hall
    simp only [List.all_cons, Bool.and_eq_true] at hall
    exact hall.1
  have hplus := beq_false_of_digit_nondigit hcd (show isDigitChar '+' = false by decide)
  have hminus := beq_false_of_digit_nondigit hcd (show isDigitChar '-' = false by decide)
  show jsParseIntL ((natToDigits n).dropWhile isJsWs) = some (Int.ofNat n)
  rw [hct, List.dropWhile_cons]
  rw [not_ws_of_digit hcd]
  simp only [Bool.false_eq_true, if_false]
  rw [jsParseIntL, hplus, hminus]
  simp only [Bool.false_eq_true, if_false]
  rw [← hct, parseUnsigned_digits hne hall, digitsVal_natToDigits]

theorem getVisitCount_natRepr (n : Nat) :
    getVisitCount (some (natRepr n)) = some (Int.ofNat n) := by
  have hne : natRepr n ≠ "" := by
    intro h
    have := congrArg String.data h
    exact natToDigits_ne_nil n this
  show (if natRepr n = "" then some 0 else jsParseInt (natRepr n)) = some (Int.ofNat n)
  rw [if_neg hne, jsParseInt_natRepr]

/-- Claim C1 counterexample: the stored string `abc` does not parse as a
number, yet `getVisitCount` returns NaN (`none`), not 0 — the falsy
fallback of `count ? parseInt(count) : 0` fires only for an absent key
or the empty string, never for a non-empty unparseable string. -/
theorem getVisitCount_nonNumeric_cex :
    jsParseInt "abc" = none ∧ getVisitCount (some "abc") ≠ some 0 := by
  decide

/-- Claim C1 as amended: `getVisitCount` returns 0 when the key is
absent or holds the empty string; for any other stored string it
returns exactly what `parseInt` yields (NaN included), and it reads
back every persisted count `natRepr n` as the integer `n`. -/
theorem getVisitCount_amended :
    getVisitCount none = some 0 ∧ getVisitCount (some "") = some 0 ∧
    (∀ s : String, s ≠ "" → getVisitCount (some s) = jsParseInt s) ∧
    (∀ n : Nat, getVisitCount (some (natRepr n)) = some (Int.ofNat n)) := by
  refine ⟨rfl, rfl, fun s hs => ?_, getVisitCount_natRepr⟩
  show (if s = "" then some 0 else jsParseInt s) = jsParseInt s
  rw [if_neg hs]

/-- Validity of `validateFieldR` unpacked: the result is valid exactly
when none of the four ordered checks fails. -/
theorem validateFieldR_valid_iff (r : FieldRules) (v : String) :
    (validateFieldR r v).valid = true ↔
      (¬(r.required = true ∧ trimL v.data = []) ∧ minFails r v = false ∧
        maxFails r v = false ∧ patFails r v = false) := by
  unfold validateFieldR
  split_ifs with h1 h2 h3 h4 <;>
    simp_all [List.isEmpty_iff, Bool.and_eq_true]

/-- Claim C2: `validateField("name", v)` is valid exactly when the
trimmed value is non-empty, the trimmed value has at least 3 characters,
and the raw value consists only of characters of the source's
letters/accented-letters/spaces class `[a-zA-ZÀ-ÿ\s]`; and the three
concrete cases return the required message, the minLength message and
valid respectively. -/
theorem validateField_name_spec :
    (∀ v : String, (validateField "name" v).valid = true ↔
        (trimL v.data ≠ [] ∧ 3 ≤ (trimL v.data).length ∧ v.data.all isNameChar = true)) ∧
    validateField "name" "" = ⟨false, "Por favor, introduz o teu nome"⟩ ∧
    validateField "name" "Al" = ⟨false, "O nome deve ter pelo menos 3 caracteres"⟩ ∧
    validateField "name" "Ana" = ⟨true, ""⟩ := by
  refine ⟨fun v => ?_, by decide, by decide, by decide⟩
  have h : validateField "name" v = validateFieldR nameRules v := rfl
  have hmin : minFails nameRules v = decide ((trimL v.data).length < 3) := rfl
  have hmax : maxFails nameRules v = false := rfl
  have hpat : patFails nameRules v = (!(trimL v.data).isEmpty && !namePatternTest v.data) := rfl
  have hreq : nameRules.required = true := rfl
  rw [h, validateFieldR_valid_iff, hmin, hmax, hpat, hreq]
  constructor
  · rintro ⟨h1, h2, _h3, h4⟩
    have htrim : trimL v.data ≠ [] := fun hh => h1 ⟨rfl, hh⟩
    have hlen : 3 ≤ (trimL v.data).length := by
      simp only [decide_eq_false_iff_not] at h2
      omega
    have hall : v.data.all isNameChar = true := by
      have hie : (trimL v.data).isEmpty = false := by
        simp [List.isEmpty_iff, htrim]
      rw [hie] at h4
      simp only [Bool.not_false, Bool.true_and, namePatternTest, Bool.not_eq_false'] at h4
      simp only [Bool.and_eq_true] at h4
      exact h4.2
    exact ⟨htrim, hlen, hall⟩
  · rintro ⟨htrim, hlen, hall⟩
    have hvne : v.data ≠ [] := by
      intro hh
      apply htrim
      rw [hh]
      rfl
    refine ⟨fun hh => htrim hh.2, ?_, rfl, ?_⟩
    · simp only [decide_eq_false_iff_not]
      omega
    · simp [namePatternTest, List.isEmpty_iff, htrim, hvne, hall]

/-- Claim C4: `validateFieldR` (the body of `validateField` for a field
with rules, here proved for every rule record, so in particular for the
five entries of `validationRules`) returns the first failing check's
message in the fixed order required/empty, minLength, maxLength,
pattern, each check firing only when its rule is present, and never
reports more than one error; and an empty optional field (no required
rule, no minLength rule — the table's `phone`) validates as valid with
the empty message, the pattern check being skipped on empty values. -/
theorem validateField_first_failure (r : FieldRules) (v : String) :
    validateFieldR r v = (match failedChecks r v with
      | [] => ⟨true, ""⟩
      | m :: _ => ⟨false, m⟩) ∧
    (r.required = false → r.minLength = none → trimL v.data = [] →
      validateFieldR r v = ⟨true, ""⟩) := by
  constructor
  · unfold validateFieldR failedChecks
    split_ifs with h1 h2 h3 h4 <;> simp [*]
  · intro hreq hmin htrim
    have h1 : (r.required && (trimL v.data).isEmpty) = false := by
      rw [hreq]
      simp
    have h2 : minFails r v = false := by
      simp [minFails, hmin]
    have h3 : maxFails r v = false := by
      rcases hmx : r.maxLength with _ | m
      · simp [maxFails, hmx]
      · simp [maxFails, hmx, htrim]
    have h4 : patFails r v = false := by
      rcases hp : r.patternTest with _ | t
      · simp [patFails, hp]
      · simp [patFails, hp, htrim]
    unfold validateFieldR
    simp [h1, h2, h3, h4]

theorem eatWs_split (xs : List Char) :
    ∃ s ys, WsOpt s ∧ xs = s ++ ys ∧ eatWs xs = ys := by
  cases xs with
  | nil => exact ⟨[], [], Or.inl rfl, rfl, rfl⟩
  | cons c t =>
    by_cases h : isJsWs c = true
    · exact ⟨[c], t, Or.inr ⟨c, h, rfl⟩, rfl, by simp [eatWs, h]⟩
    · exact ⟨[], c :: t, Or.inl rfl, rfl, by simp [eatWs, h]⟩

theorem GroupsShape_head {n : Nat} {cs : List Char} (h : GroupsShape (n + 1) cs) :
    ∃ a t, cs = a :: t ∧ isDigitChar a = true := by
  simp only [GroupsShape] at h
  obtain ⟨a, b, c, s, rest, ha, _, _, _, _, hcs⟩ := h
  exact ⟨a, _, hcs, ha⟩

theorem GroupsShape_nil_or_digit {n : Nat} {ys : List Char} (h : GroupsShape n ys) :
    ys = [] ∨ ∃ a t, ys = a :: t ∧ isDigitChar a = true := by
  cases n with
  | zero => exact Or.inl h
  | succ n => exact Or.inr (GroupsShape_head h)

theorem eatWs_append_of_wsOpt {s rest : List Char} (hs : WsOpt s)
    (h : rest = [] ∨ ∃ a t, rest = a :: t ∧ isDigitChar a = true) :
    eatWs (s ++ rest) = rest := by
  rcases hs with rfl | ⟨w, hw, rfl⟩
  · rcases h with rfl | ⟨a, t, rfl, ha⟩
    · rfl
    · simp [eatWs, not_ws_of_digit ha]
  · simp [eatWs, hw]

theorem matchGroups_iff : ∀ (n : Nat) (cs : List Char),
    matchGroups n cs = true ↔ GroupsShape n cs := by
  intro n
  induction n with
  | zero =>
    intro cs
    simp [matchGroups, GroupsShape, List.isEmpty_iff]
  | succ n ih =>
    intro cs
    match cs with
    | [] => simp [matchGroups, GroupsShape]
    | [a] => simp [matchGroups, GroupsShape]
    | [a, b] => simp [matchGroups, GroupsShape]
    | a :: b :: c :: rest =>
      constructor
      · intro h
        simp only [matchGroups, Bool.and_eq_true] at h
        obtain ⟨⟨⟨ha, hb⟩, hc⟩, hg⟩ := h
        obtain ⟨s, ys, hws, heq, hys⟩ := eatWs_split rest
        refine ⟨a, b, c, s, ys, ha, hb, hc, hws, ?_, by rw [heq]⟩
        rw [← hys]
        exact (ih (eatWs rest)).mp hg
      · rintro ⟨a2, b2, c2, s, ys, ha, hb, hc, hws, hshape, heq⟩
        injection heq with e1 heq2
        injection heq2 with e2 heq3
        injection heq3 with e3 e4
        subst e1
        subst e2
        subst e3
        subst e4
        simp only [matchGroups, Bool.and_eq_true]
        refine ⟨⟨⟨ha, hb⟩, hc⟩, ?_⟩
        rw [eatWs_append_of_wsOpt hws (GroupsShape_nil_or_digit hshape)]
        exact (ih ys).mpr hshape

theorem matchCC_iff (cs : List Char) :
    matchCC cs = true ↔ ∃ s rest, WsOpt s ∧ GroupsShape 3 rest ∧
      cs = '+' :: '3' :: '5' :: '1' :: (s ++ rest) := by
  constructor
  · intro h
    match cs, h with
    | c1 :: c2 :: c3 :: c4 :: rest, h => ?_
    case _ =>
      simp only [matchCC, Bool.and_eq_true, beq_iff_eq] at h
      obtain ⟨⟨⟨⟨e1, e2⟩, e3⟩, e4⟩, hg⟩ := h
      subst e1
      subst e2
      subst e3
      subst e4
      obtain ⟨s, ys, hws, heq, hys⟩ := eatWs_split rest
      refine ⟨s, ys, hws, ?_, by rw [heq]⟩
      rw [← hys]
      exact (matchGroups_iff 3 (eatWs rest)).mp hg
  · rintro ⟨s, ys, hws, hshape, rfl⟩
    simp only [matchCC, beq_self_eq_true, Bool.true_and, Bool.and_eq_true]
    rw [eatWs_append_of_wsOpt hws (GroupsShape_nil_or_digit hshape)]
    exact (matchGroups_iff 3 ys).mpr hshape

theorem phonePatternTest_iff (cs : List Char) :
    phonePatternTest cs = true ↔ phoneShaped cs := by
  unfold phonePatternTest phoneShaped
  rw [Bool.or_eq_true, matchCC_iff, matchGroups_iff]

/-- Claim C3 counterexample: the phone value `+123 456 789 123` is
`+CCC NNN NNN NNN`-shaped in the spec's sense (optional country code,
nine digits in threes, optional spaces) yet `validateField` rejects it —
the source pattern accepts only the literal country code `+351`; and the
value `912345678 ` (trailing space) is accepted by the code though it is
not of the spec's shape, because each regex group carries its own
optional trailing `\s?`. -/
theorem validateField_phone_cex :
    (validateField "phone" "+123 456 789 123").valid = false ∧
    specPhoneShaped "+123 456 789 123".data = true ∧
    (validateField "phone" "912345678 ").valid = true ∧
    specPhoneShaped "912345678 ".data = false := by
  decide

/-- Claim C3 as amended: `validateField("phone", v)` accepts exactly the
values whose trimmed form is empty, plus the values shaped as an
optional literal `+351` (optionally followed by one whitespace
character) and three groups of three digits, each group optionally
followed by one whitespace character — so the country code is fixed to
+351 and a single trailing whitespace is allowed. -/
theorem validateField_phone_amended (v : String) :
    (validateField "phone" v).valid = true ↔
      (trimL v.data = [] ∨ phoneShaped v.data) := by
  have h : validateField "phone" v = validateFieldR phoneRules v := rfl
  have hpat : patFails phoneRules v =
      (!(trimL v.data).isEmpty && !phonePatternTest v.data) := rfl
  have hreq : phoneRules.required = false := rfl
  have hmin : minFails phoneRules v = false := rfl
  have hmax : maxFails phoneRules v = false := rfl
  rw [h, validateFieldR_valid_iff, hpat, hreq, hmin, hmax,
    ← phonePatternTest_iff]
  by_cases hie : trimL v.data = []
  · simp [hie, List.isEmpty_iff]
  · simp [hie, List.isEmpty_iff]

/-- Claim C5: the list `searchProjects` renders holds exactly the
projects of the active category's subset whose lowercased title,
lowercased description or some lowercased tag contains the lowercased,
trimmed query as a substring; and when the trimmed query is empty (in
particular whitespace-only) it is the active category's full subset. -/
theorem searchProjects_spec (cat query : String) (p : Project) :
    p ∈ searchResults cat query ↔
      (p ∈ categorySubset cat ∧
        (jsTrimS (jsToLowerS query) = "" ∨
          (containsSub (jsToLowerS p.title).data (jsTrimS (jsToLowerS query)).data = true ∨
            containsSub (jsToLowerS p.description).data (jsTrimS (jsToLowerS query)).data = true ∨
            ∃ tag ∈ p.tags,
              containsSub (jsToLowerS tag).data (jsTrimS (jsToLowerS query)).data = true))) := by
  unfold searchResults
  by_cases h : jsTrimS (jsToLowerS query) = ""
  · simp [h]
  · simp only [h, if_false, List.mem_filter, projectMatches, Bool.or_eq_true,
      List.any_eq_true, false_or]
    tauto

/-- Claim C6: for a burst of calls to the debounced search (delay 280ms,
`debouncedSearch = debounce(searchProjects, 280)`) in which each call
arrives strictly less than 280ms after the previous one, exactly one
underlying `searchProjects` execution happens, it carries the last
call's argument, and it fires at the last call's time plus the 280ms
quiet period — every call having cancelled and restarted the pending
timer of its predecessor. -/
theorem debouncedSearch_burst (calls : List (Nat × String)) (t : Nat) (q : String)
    (hgaps : List.Chain' (fun call next => next.1 < call.1 + 280) calls)
    (hlast : calls.getLast? = some (t, q)) :
    debounceRun 280 calls = [(t + 280, q)] := by
  induction calls with
  | nil => simp at hlast
  | cons p rest ih =>
    cases rest with
    | nil =>
      simp only [List.getLast?_singleton, Option.some_inj] at hlast
      rw [hlast]
      rfl
    | cons p2 rest2 =>
      rw [List.chain'_cons] at hgaps
      rw [List.getLast?_cons_cons] at hlast
      have hrec := ih hgaps.2 hlast
      obtain ⟨t1, a1⟩ := p
      obtain ⟨t2, a2⟩ := p2
      simp only [debounceRun]
      rw [if_pos hgaps.1]
      exact hrec

/-- Witness for claim C6 at a concrete three-call burst. -/
theorem debouncedSearch_burst_witness :
    debounceRun 280 [(0, "j"), (100, "ja"), (250, "jav")] = [(530, "jav")] :=
  debouncedSearch_burst [(0, "j"), (100, "ja"), (250, "jav")] 250 "jav"
    (by simp [List.chain'_cons]) (by decide)

/-- Claim C7: `saveMessage` reads the persisted list (an absent key as
the empty list), builds the new message with `read = false` and an empty
phone normalized to the explicit absent marker (`none`, the source's
`null`) rather than the empty string, prepends it and persists the full
list; after two sequential calls the second call's message sits at index
0 and the first call's at index 1 of the persisted list. -/
theorem saveMessage_spec (t1 t2 : Nat) (iso1 iso2 : String)
    (fd1 fd2 : ContactFormData) (stored : Option (List ContactMsg)) :
    (saveMessage t1 iso1 fd1 stored).1.read = false ∧
    (saveMessage t1 iso1 fd1 stored).1.phone =
      (if fd1.phone = "" then none else some fd1.phone) ∧
    (saveMessage t1 iso1 fd1 none).2 = [(saveMessage t1 iso1 fd1 none).1] ∧
    (saveMessage t1 iso1 fd1 stored).2 =
      (saveMessage t1 iso1 fd1 stored).1 :: stored.getD [] ∧
    (saveMessage t2 iso2 fd2 (some (saveMessage t1 iso1 fd1 stored).2)).2[0]? =
      some (saveMessage t2 iso2 fd2 (some (saveMessage t1 iso1 fd1 stored).2)).1 ∧
    (saveMessage t2 iso2 fd2 (some (saveMessage t1 iso1 fd1 stored).2)).2[1]? =
      some (saveMessage t1 iso1 fd1 stored).1 := by
  refine ⟨rfl, rfl, rfl, rfl, ?_, ?_⟩ <;> simp [saveMessage]

/-- Filtering out one id from a list whose ids are pairwise distinct
removes exactly the first (and only) match, keeping the rest in order. -/
theorem filter_ne_eq_eraseP (id : Nat) :
    ∀ msgs : List ContactMsg, msgs.Pairwise (fun m1 m2 => m1.id ≠ m2.id) →
      msgs.filter (fun m => m.id != id) = msgs.eraseP (fun m => m.id == id) := by
  intro msgs h
  induction msgs with
  | nil => rfl
  | cons m rest ih =>
    rw [List.pairwise_cons] at h
    by_cases hm : m.id = id
    · rw [List.filter_cons, List.eraseP_cons]
      simp only [hm, bne_self_eq_false, beq_self_eq_true, if_true, Bool.false_eq_true,
        if_false]
      apply List.filter_eq_self.mpr
      intro x hx
      have := h.1 x hx
      rw [hm] at this
      simp [bne_iff_ne]
      omega
    · rw [List.filter_cons, List.eraseP_cons]
      have h1 : (m.id != id) = true := by simp [bne_iff_ne, hm]
      have h2 : (m.id == id) = false := by simp [hm]
      rw [h1, h2]
      simp only [if_true, Bool.cond_false]
      rw [ih h.2]

/-- Claim C8: on a persisted list with pairwise-distinct ids (the data
model's id-uniqueness invariant), a confirmed `deleteMessage(id)`
removes exactly the one entry matching `id` and leaves every other
message in its original relative order (`eraseP` semantics); and
declining the confirmation prompt of any destructive action — message
delete, clear-all, visit reset — leaves the persisted state unchanged. -/
theorem deleteMessage_spec (id : Nat) (stored : Option (List ContactMsg))
    (vs : VStore) (msgs : List ContactMsg)
    (hids : msgs.Pairwise (fun m1 m2 => m1.id ≠ m2.id)) :
    deleteMessage true id (some msgs) =
      some (msgs.eraseP (fun m => m.id == id)) ∧
    deleteMessage false id stored = stored ∧
    clearAllMessages false stored = stored ∧
    resetVisitCounter false vs = vs := by
  refine ⟨?_, rfl, rfl, rfl⟩
  show some (msgs.filter (fun m => m.id != id)) = _
  rw [filter_ne_eq_eraseP id msgs hids]

/-- Witness for claim C8 at a concrete two-message store. -/
theorem deleteMessage_spec_witness :
    deleteMessage true 1 (some [msgA, msgB]) =
      some ([msgA, msgB].eraseP (fun m => m.id == 1)) ∧
    deleteMessage false 1 (some [msgA, msgB]) = some [msgA, msgB] ∧
    clearAllMessages false (some [msgA, msgB]) = some [msgA, msgB] ∧
    resetVisitCounter false ⟨some "3", some "d"⟩ = ⟨some "3", some "d"⟩ :=
  deleteMessage_spec 1 (some [msgA, msgB]) ⟨some "3", some "d"⟩ [msgA, msgB]
    (by decide)

theorem natRepr_one : natRepr 1 = "1" := by
  show (⟨natToDigits 1⟩ : String) = "1"
  rw [natToDigits.eq_def]
  norm_num
  decide

theorem jsNumToString_ofNat (n : Nat) :
    jsNumToString (some (Int.ofNat n)) = natRepr n := by
  show (if (Int.ofNat n : Int) < 0 then "-" ++ natRepr (Int.ofNat n).natAbs
    else natRepr (Int.ofNat n).natAbs) = natRepr n
  have hnn : ¬(Int.ofNat n < 0) := by
    have h : (Int.ofNat n) = (n : Int) := rfl
    rw [h]
    omega
  rw [if_neg hnn]
  simp

theorem inc_visitCount_store {s : VStore} (iso : String) {n : Nat}
    (h : getVisitCount s.visitCount = some (Int.ofNat n)) :
    (incrementVisitCount iso s).2.visitCount = some (natRepr (n + 1)) ∧
    (incrementVisitCount iso s).1 = some (Int.ofNat (n + 1)) := by
  have hmap : (getVisitCount s.visitCount).map (· + 1) = some (Int.ofNat (n + 1)) := by
    rw [h]
    rfl
  constructor
  · show some (jsNumToString ((getVisitCount s.visitCount).map (· + 1))) = _
    rw [hmap, jsNumToString_ofNat]
  · show (getVisitCount s.visitCount).map (· + 1) = _
    exact hmap

theorem getVisitCount_good {s : VStore} (hs : goodStore s) :
    ∃ n : Nat, getVisitCount s.visitCount = some (Int.ofNat n) ∧
      countVal s = Int.ofNat n := by
  rcases hs with hnone | ⟨n, hn⟩
  · exact ⟨0, by rw [hnone]; rfl, by unfold countVal; rw [hnone]; rfl⟩
  · refine ⟨n, by rw [hn]; exact getVisitCount_natRepr n, ?_⟩
    unfold countVal
    rw [hn, getVisitCount_natRepr]
    rfl

theorem visitStep_good {s : VStore} (hs : goodStore s) (op : VisitOp) :
    goodStore (visitStep op s) := by
  cases op with
  | inc iso =>
    obtain ⟨n, hget, _⟩ := getVisitCount_good hs
    exact Or.inr ⟨n + 1, (inc_visitCount_store iso hget).1⟩
  | reset c =>
    cases c with
    | true => exact Or.inl rfl
    | false => exact hs

theorem visitRun_good (ops : List VisitOp) : goodStore (visitRun ops) := by
  unfold visitRun
  have H : ∀ (l : List VisitOp) (s : VStore), goodStore s →
      goodStore (l.foldl (fun s op => visitStep op s) s) := by
    intro l
    induction l with
    | nil => exact fun s hs => hs
    | cons op rest ih => exact fun s hs => ih _ (visitStep_good hs op)
  exact H ops ⟨none, none⟩ (Or.inl rfl)

/-- Claim C9: `incrementVisitCount` on a fresh (empty) store returns 1,
persists the string `1` as the count and the current timestamp as
`lastVisit`; and along every operation sequence from the fresh store the
persisted visit count never decreases, except that a confirmed reset
returns it to the zero (empty) state. -/
theorem visitCounter_spec (iso : String) (ops : List VisitOp) (op : VisitOp) :
    incrementVisitCount iso ⟨none, none⟩ = (some 1, ⟨some "1", some iso⟩) ∧
    (op = VisitOp.reset true → countVal (visitStep op (visitRun ops)) = 0) ∧
    (op ≠ VisitOp.reset true →
      countVal (visitRun ops) ≤ countVal (visitStep op (visitRun ops))) := by
  refine ⟨?_, ?_, ?_⟩
  · have hjs : jsNumToString ((getVisitCount none).map (· + 1)) = "1" := by
      rw [show (getVisitCount none).map (· + 1) = some (Int.ofNat 1) by decide,
        jsNumToString_ofNat, natRepr_one]
    show ((getVisitCount none).map (· + 1),
        VStore.mk (some (jsNumToString ((getVisitCount none).map (· + 1)))) (some iso)) =
      (some 1, ⟨some "1", some iso⟩)
    rw [hjs, show (getVisitCount none).map (· + 1) = some (1 : Int) by decide]
  · rintro rfl
    rfl
  · intro hop
    obtain ⟨n, hget, hcv⟩ := getVisitCount_good (visitRun_good ops)
    cases op with
    | inc iso2 =>
      obtain ⟨hstore, _⟩ := inc_visitCount_store iso2 hget
      show countVal (visitRun ops) ≤ countVal ((incrementVisitCount iso2 (visitRun ops)).2)
      have hnew : countVal ((incrementVisitCount iso2 (visitRun ops)).2) = Int.ofNat (n + 1) := by
        unfold countVal
        rw [hstore, getVisitCount_natRepr]
        rfl
      rw [hcv, hnew]
      exact Int.ofNat_le.mpr (Nat.le_succ n)
    | reset c =>
      cases c with
      | true => exact absurd rfl hop
      | false => exact le_refl _

theorem natToDigits_len1 {n : Nat} (h : n < 10) : natToDigits n = [digitChar n] := by
  rw [natToDigits.eq_def, dif_pos h]

theorem natToDigits_length {n : Nat} (h : n ≤ 99) :
    (natToDigits n).length = 1 ∨ (natToDigits n).length = 2 := by
  rw [natToDigits.eq_def]
  split
  next => exact Or.inl rfl
  next hge =>
    right
    rw [List.length_append, natToDigits_len1 (show n / 10 < 10 by omega)]
    rfl

theorem pad2_length {n : Nat} (h : n ≤ 99) : (pad2 n).length = 2 := by
  unfold pad2
  have hdata : (natRepr n).length = (natToDigits n).length := rfl
  rcases natToDigits_length h with h1 | h2
  · have hl : (natRepr n).length = 1 := by rw [hdata, h1]
    rw [if_pos (by omega), String.length_append, hl]
    decide
  · have hl : (natRepr n).length = 2 := by rw [hdata, h2]
    rw [if_neg (by omega)]
    exact hl

theorem natRepr_twelve : natRepr 12 = "12" := by
  show (⟨natToDigits 12⟩ : String) = "12"
  rw [natToDigits.eq_def, dif_neg (by omega),
    show (12 : Nat) / 10 = 1 by norm_num, show (12 : Nat) % 10 = 2 by norm_num,
    natToDigits_len1 (by omega)]
  decide

theorem pad2_twelve : pad2 12 = "12" := by
  unfold pad2
  rw [natRepr_twelve]
  decide

theorem hour12_le (h : Nat) : hour12 h ≤ 12 := by
  unfold hour12
  split
  · omega
  · omega

/-- Claim C10: in 12-hour mode `updateClock` shows the hour as
`hours % 12 || 12`, so both midnight (hour 0) and noon (hour 12) display
as `12`; and the three displayed time fields are always two-digit
zero-padded strings (hours in both formats, minutes, seconds). -/
theorem updateClock_spec (h m s : Nat) (hh : h ≤ 23) (hm : m ≤ 59) (hs : s ≤ 59) :
    (updateClockDisplay false 0 m s).1 = "12" ∧
    (updateClockDisplay false 12 m s).1 = "12" ∧
    (updateClockDisplay true h m s).1.length = 2 ∧
    (updateClockDisplay false h m s).1.length = 2 ∧
    (updateClockDisplay true h m s).2.1.length = 2 ∧
    (updateClockDisplay true h m s).2.2.length = 2 := by
  refine ⟨?_, ?_, ?_, ?_, ?_, ?_⟩
  · show pad2 (hour12 0) = "12"
    rw [show hour12 0 = 12 from rfl]
    exact pad2_twelve
  · show pad2 (hour12 12) = "12"
    rw [show hour12 12 = 12 from rfl]
    exact pad2_twelve
  · show (pad2 h).length = 2
    exact pad2_length (by omega)
  · show (pad2 (hour12 h)).length = 2
    exact pad2_length (le_trans (hour12_le h) (by omega))
  · show (pad2 m).length = 2
    exact pad2_length (by omega)
  · show (pad2 s).length = 2
    exact pad2_length (by omega)

/-- Witness for claim C10 at hour 0 (and 12), minute 30, second 7. -/
theorem updateClock_spec_witness :
    (updateClockDisplay false 0 30 7).1 = "12" ∧
    (updateClockDisplay false 12 30 7).1 = "12" ∧
    (updateClockDisplay true 0 30 7).1.length = 2 ∧
    (updateClockDisplay false 0 30 7).1.length = 2 ∧
    (updateClockDisplay true 0 30 7).2.1.length = 2 ∧
    (updateClockDisplay true 0 30 7).2.2.length = 2 :=
  updateClock_spec 0 30 7 (by omega) (by omega) (by omega)
